import Mathlib

/-!
Verification of the continuation freeze/thaw core
(`src/hotspot/share/runtime/continuationFreezeThaw.cpp`).

The embedding models stack-chunk headers and memories at word granularity.
Addresses and word contents are natural numbers; all sizes are in machine
words, as in the source.  Platform constants are those of x86-64, the CPU
directory present in the repository.
-/

namespace Loom

/-- Machine words and code addresses, in word units. -/
abbrev Word := Nat

/-- `frame::metadata_words` on x86-64: saved return pc + saved rbp. -/
def metadata_words : Nat := 2

/-- `frame::align_wiggle` on x86-64. -/
def align_wiggle : Nat := 1

/-- `frame::sender_sp_ret_address_offset()` on x86-64: the return address
sits one word below the sender sp. -/
def sender_sp_ret_address_offset : Nat := 1

/-- `LogBytesPerWord` on a 64-bit platform. -/
def LogBytesPerWord : Nat := 3

/-- Heap stack chunk: header fields plus the inline word array, after
`stackChunkOopDesc` as used throughout `continuationFreezeThaw.cpp`.
`mem o` is the word stored at offset `o` (in words) inside the chunk's
stack array; `hasParent` records whether `chunk->parent()` is non-null,
and `requires_barriers` the GC collaborator's answer for this chunk. -/
structure StackChunk where
  stack_size : Nat
  sp : Nat
  argsize : Nat
  max_size : Nat
  pc : Word
  hasParent : Bool
  has_mixed_frames : Bool
  is_gc_mode : Bool
  has_bitmap : Bool
  requires_barriers : Bool
  mem : Nat → Word

/-- `stackChunkOopDesc::is_empty`: the chunk is empty when `sp` has reached
`stack_size` (spec §3: "When `sp == stack_size` the chunk is empty"). -/
def StackChunk.is_empty (c : StackChunk) : Bool := decide (c.stack_size ≤ c.sp)

/-- Bulk copy of `len` words: the destination memory agrees with the source
region `[srcBase, srcBase+len)` on `[dstBase, dstBase+len)` and is unchanged
elsewhere (`copy_from_stack_to_chunk` / `copy_from_chunk_to_stack`). -/
def copy_region (dst src : Nat → Word) (dstBase srcBase len : Nat) : Nat → Word :=
  fun o => if dstBase ≤ o ∧ o < dstBase + len then src (srcBase + (o - dstBase)) else dst o

/-- Inputs of `Freeze::freeze_fast` that come from the native stack and the
continuation entry: `nativeMem` is the carrier's native stack (word-indexed,
addresses grow upward like chunk offsets), `cont_stack_top = frame_sp +
metadata_words`, `cont_size = cont_stack_bottom - cont_stack_top`, and
`cont_argsize = _cont.argsize()`, the caller-passed argument words of the
bottom-most frozen frame. -/
structure FreezeFastIn where
  nativeMem : Nat → Word
  frame_sp : Nat
  cont_size : Nat
  cont_argsize : Nat

/-- `cont_stack_top = frame_sp + frame::metadata_words`, skipping the
doYield stub frame (line 536 of the source). -/
def FreezeFastIn.cont_stack_top (i : FreezeFastIn) : Nat :=
  i.frame_sp + metadata_words

/-- `Freeze::is_chunk_available_for_fast_freeze` (header part): requires a
tail chunk that is not GC-mode, not barriered, not mixed, and has room
`chunk.sp - metadata_words ≥ size`, where `size` is the frozen region minus
the argument overlap when the chunk is non-empty. `raw_size` is
`stack_bottom - stack_top`. -/
def is_chunk_available_for_fast_freeze (tail : Option StackChunk)
    (cont_argsize raw_size : Nat) : Bool :=
  match tail with
  | none => false
  | some chunk =>
    if chunk.is_gc_mode || chunk.requires_barriers || chunk.has_mixed_frames then
      false
    else
      let size := if chunk.sp < chunk.stack_size then raw_size - cont_argsize else raw_size
      decide (size ≤ chunk.sp - metadata_words)

/-- Common tail of `Freeze::freeze_fast` from the point where
`chunk_start_sp` is known: compute `chunk_new_sp = chunk_start_sp -
cont_size`, bulk-copy `cont_size + metadata_words` words from
`cont_stack_top - metadata_words` to `chunk_new_sp - metadata_words`,
patch the bottom-most frozen frame's return-pc slot with the chunk's prior
`pc`, then set `sp := chunk_new_sp` and `pc` to the topmost frame's saved
return address. -/
def freeze_fast_copy (chunk : StackChunk) (chunk_start_sp : Nat) (i : FreezeFastIn) :
    StackChunk :=
  let chunk_new_sp := chunk_start_sp - i.cont_size
  let chunk_top := chunk_new_sp
  let mem1 := copy_region chunk.mem i.nativeMem (chunk_top - metadata_words)
    (i.cont_stack_top - metadata_words) (i.cont_size + metadata_words)
  let chunk_bottom_sp := chunk_top + i.cont_size - i.cont_argsize
  let mem2 := Function.update mem1 (chunk_bottom_sp - sender_sp_ret_address_offset) chunk.pc
  { chunk with
    mem := mem2
    sp := chunk_new_sp
    pc := i.nativeMem (i.cont_stack_top - sender_sp_ret_address_offset) }

/-- `Freeze::freeze_fast` with `chunk_available = true`: reuse the tail
chunk.  Non-empty tail: `chunk_start_sp = chunk.sp + cont_argsize` (argument
overlap) and `max_size += cont_size - cont_argsize`.  Empty tail:
`chunk_start_sp = chunk.sp`, `max_size := cont_size`, `argsize :=
cont_argsize`. -/
def freeze_fast_avail (chunk : StackChunk) (i : FreezeFastIn) : StackChunk :=
  if chunk.sp < chunk.stack_size then
    freeze_fast_copy
      { chunk with max_size := chunk.max_size + i.cont_size - i.cont_argsize }
      (chunk.sp + i.cont_argsize) i
  else
    freeze_fast_copy
      { chunk with max_size := i.cont_size, argsize := i.cont_argsize }
      chunk.sp i

/-- Outcome of `Freeze::allocate_chunk` as observed by `freeze_fast`:
whether the allocation succeeded, whether `_thread->cont_fastpath()` was
still set afterwards (a safepoint during allocation clears it), whether
`_barriers` was set (the GC requires barriers on the new chunk), and the
fresh chunk's uninitialized stack contents. -/
structure AllocOutcome where
  success : Bool
  fastpath_kept : Bool
  barriers : Bool
  mem0 : Nat → Word

/-- A chunk as returned by `Freeze::allocate_chunk` for a requested
`stack_size`: properly initialized with `sp = stack_size`, `max_size = 0`,
`argsize = 0`, no flags set (asserted at lines 1217-1225 of the source),
with its parent set to the last non-empty chunk. -/
def allocate_chunk (stack_size : Nat) (hasNonemptyParent : Bool) (a : AllocOutcome) :
    StackChunk :=
  { stack_size := stack_size
    sp := stack_size
    argsize := 0
    max_size := 0
    pc := 0
    hasParent := hasNonemptyParent
    has_mixed_frames := false
    is_gc_mode := false
    has_bitmap := false
    requires_barriers := a.barriers
    mem := a.mem0 }

/-- `Freeze::freeze_fast` with `chunk_available = false`: allocate a chunk
of `cont_size + metadata_words` words; abandon the fast path (`none`,
retry slow) when allocation failed, the fast-path flag was cleared by a
safepoint, or the new chunk requires barriers; otherwise set `max_size :=
cont_size`, `argsize := cont_argsize`, freeze with `chunk_start_sp =
cont_size + metadata_words` and return the resulting chunk. -/
def freeze_fast_alloc (hasNonemptyParent : Bool) (i : FreezeFastIn) (a : AllocOutcome) :
    Option StackChunk :=
  let chunk := allocate_chunk (i.cont_size + metadata_words) hasNonemptyParent a
  if !a.success || !a.fastpath_kept || a.barriers then
    none
  else
    some (freeze_fast_copy
      { chunk with max_size := i.cont_size, argsize := i.cont_argsize }
      (i.cont_size + metadata_words) i)

/-- `ContinuationHelper::frame_align_pointer` on x86-64: align the stack
pointer down (toward lower word offsets) to the 16-byte frame alignment. -/
def frame_align_pointer (p : Nat) : Nat := p - p % 2

/-- `thaw_size(chunk)`: conservative word bound taken before thawing,
`max_size + metadata_words + 2*align_wiggle + 200` (the 200-word slack). -/
def thaw_size_bound (chunk : StackChunk) : Nat :=
  chunk.max_size + metadata_words + 2 * align_wiggle + 200

/-- `stack_overflow_check(thread, size, sp)`: sizes above a page are checked
against the thread's overflow limit; `sp` and `limit` are byte addresses. -/
def stack_overflow_check (page_size : Nat) (limit : Int) (size : Nat) (sp : Int) : Bool :=
  if size > page_size then
    if sp - size < limit then false else true
  else true

/-- `prepare_thaw_internal`: replace an empty tail by its parent, compute
`thaw_size` in bytes, and return it when the stack-overflow check on
`size + 300` bytes passes, or 0 on failure.  The second component is the
chunk the continuation's tail points to afterwards; no chunk field is
modified.  `parent` stands for `tail->parent()`, consulted only when the
tail is empty. -/
def prepare_thaw_internal (tail parent : StackChunk) (page_size : Nat)
    (limit bottom : Int) : Nat × StackChunk :=
  let chunk := if tail.is_empty then parent else tail
  let size := thaw_size_bound chunk <<< LogBytesPerWord
  if stack_overflow_check page_size limit (size + 300) bottom then
    (size, chunk)
  else
    (0, chunk)

/-- Modelled from the spec: `stackChunkOopDesc::has_thaw_slowpath_condition`
is not part of the repository sources.  Spec §3 invariant 3 makes the fast
thaw path require `!HAS_MIXED_FRAMES && !GC_MODE && !HAS_BITMAP` (barriers
are tested separately in `can_thaw_fast`), and `Thaw::thaw_fast` asserts
exactly these three flags to be clear. -/
def StackChunk.has_thaw_slowpath_condition (c : StackChunk) : Bool :=
  c.has_mixed_frames || c.is_gc_mode || c.has_bitmap

/-- `Thaw::can_thaw_fast`: no barriers on the chunk, the thread's fast-path
state intact (not in interp-only mode), none of the chunk's slow-path flags,
and no forced frame-pointer preservation. -/
def can_thaw_fast (barriers fastpath_thread_state preserveFramePointer : Bool)
    (chunk : StackChunk) : Bool :=
  !barriers && fastpath_thread_state && !chunk.has_thaw_slowpath_condition
    && !preserveFramePointer

/-- Inputs of `Thaw::thaw_fast` beyond the chunk itself: the continuation
entry's sp and pc, the return-barrier stub address, the carrier's native
stack memory, and the metadata of the chunk's topmost frame delivered by
the `StackChunkFrameStream` (the frame's code-blob size and its
stack-passed argument count). -/
structure ThawFastIn where
  entrySP : Nat
  entryPC : Word
  returnBarrier : Word
  nativeMem : Nat → Word
  frame_size : Nat
  frame_argsize : Nat

/-- Modelled from the spec: the chunk frame stream
(`StackChunkFrameStream`, spec §4.2) is not part of the repository sources.
The cursor is done once it advances past the last frame; the top `argsize`
words of the chunk's content at `[stack_size - argsize, stack_size)` are
the bottom frame's caller-passed arguments, not a frame (spec §3 inv. 2),
so after stepping over the single top frame the stream is done exactly when
`sp + frame_size` reaches `stack_size - argsize`. -/
def stream_done_after_top_frame (chunk : StackChunk) (frame_size : Nat) : Bool :=
  decide (chunk.stack_size - chunk.argsize ≤ chunk.sp + frame_size)

/-- Result of `Thaw::thaw_fast`: the updated chunk, the native stack after
the copy and return-pc patch, the returned `stack_sp`, the bottom frame's
`bottom_sp`, and the quantities the source computes on the way. -/
structure ThawFastResult where
  chunk : StackChunk
  mem : Nat → Word
  stack_sp : Nat
  bottom_sp : Nat
  thaw_size : Nat
  argsize : Nat
  is_last : Bool

/-- The emptied chunk header written by both emptying branches of
`Thaw::thaw_fast` (lines 1654-1656 and 1674-1676): `sp := stack_size`,
`argsize := 0`, `max_size := 0`. -/
def thaw_emptied (chunk : StackChunk) : StackChunk :=
  { chunk with sp := chunk.stack_size, argsize := 0, max_size := 0 }

/-- The chunk header after a single-frame thaw that leaves frames behind
(lines 1678-1682): `sp` advances by the frame size, `max_size` shrinks by
it, and `pc` becomes the return pc into the next frame, the word stored
one slot below the new `sp` (asserted at line 1682 of the source). -/
def thaw_advanced (chunk : StackChunk) (frame_size : Nat) : StackChunk :=
  { chunk with
    sp := chunk.sp + frame_size
    max_size := chunk.max_size - frame_size
    pc := chunk.mem (chunk.sp + frame_size - sender_sp_ret_address_offset) }

/-- `Thaw::thaw_fast`: below the 500-word threshold, bulk-thaw the whole
chunk and empty it (`thaw_size = full_chunk_size`); otherwise thaw the
single topmost compiled frame plus its stack arguments (`thaw_size =
frame_size + argsize`), emptying the chunk if that frame was the last one
and otherwise advancing it.  Afterwards copy `thaw_size + metadata_words`
words from below the old chunk sp onto the native stack just below the
entry, and patch the bottom frame's return-pc slot with the return
barrier, or with the entry's pc when the thawed frames were the
continuation's last content.  The source's two branches are flattened
into `bulk`/`empty` selectors with identical outcomes. -/
def thaw_fast (chunk : StackChunk) (i : ThawFastIn) : ThawFastResult :=
  let threshold : Nat := 500
  let chunk_start_sp := chunk.sp
  let full_chunk_size := chunk.stack_size - chunk_start_sp
  let bulk := decide (full_chunk_size < threshold)
  let empty := bulk || stream_done_after_top_frame chunk i.frame_size
  let chunk' := if empty then thaw_emptied chunk else thaw_advanced chunk i.frame_size
  let thawSize := if bulk then full_chunk_size else i.frame_size + i.frame_argsize
  let argsize := if bulk then chunk.argsize else i.frame_argsize
  let is_last := empty && !chunk.hasParent
  let bottom_sp := frame_align_pointer (i.entrySP - argsize)
  let stack_sp := frame_align_pointer (i.entrySP - thawSize)
  let mem1 := copy_region i.nativeMem chunk.mem (stack_sp - metadata_words)
    (chunk_start_sp - metadata_words) (thawSize + metadata_words)
  let patch_pc := if is_last then i.entryPC else i.returnBarrier
  let mem2 := Function.update mem1 (bottom_sp - sender_sp_ret_address_offset) patch_pc
  { chunk := chunk'
    mem := mem2
    stack_sp := stack_sp
    bottom_sp := bottom_sp
    thaw_size := thawSize
    argsize := argsize
    is_last := is_last }

/-- Chunk-header effect of `ThawBase::finish_thaw`: an emptied chunk is
unlinked from the tail when the GC has seen it, and otherwise kept with its
`HAS_MIXED_FRAMES` flag cleared for reuse; in both cases `max_size := 0`.
A non-empty chunk has `max_size` reduced by the accumulated alignment.
Returns the updated chunk and whether it was kept in the chunk list. -/
def finish_thaw_chunk (chunk : StackChunk) (seen_by_gc : Bool) (align_size : Nat) :
    StackChunk × Bool :=
  if chunk.is_empty then
    if seen_by_gc then
      ({ chunk with max_size := 0 }, false)
    else
      ({ chunk with has_mixed_frames := false, max_size := 0 }, true)
  else
    ({ chunk with max_size := chunk.max_size - align_size }, true)

/-- Results of freeze, `enum freeze_result` in the source. -/
inductive FreezeResult where
  | freeze_ok
  | freeze_ok_bottom
  | freeze_pinned_cs
  | freeze_pinned_native
  | freeze_pinned_monitor
  | freeze_exception
deriving DecidableEq, Repr

/-- `Freeze::try_freeze_fast` on the allocation path: `freeze_ok` when
`freeze_fast` succeeded, otherwise the result of the slow retry
(`freeze_slow`), abstracted as `slow`. -/
def try_freeze_fast_alloc (hasNonemptyParent : Bool) (i : FreezeFastIn)
    (a : AllocOutcome) (slow : FreezeResult) : FreezeResult :=
  match freeze_fast_alloc hasNonemptyParent i a with
  | some _ => .freeze_ok
  | none => slow

/-- Frame descriptor as consulted by `FreezeBase::freeze`: a compiled frame
with or without an oop map and with or without an owned monitor, an
interpreted frame that may be a native-method entry and may own a monitor,
a stub frame, or any other (native) frame. -/
inductive FrameKind where
  | compiledF (has_oop_map owns_monitor : Bool)
  | interpretedF (is_native owns_monitor : Bool)
  | stubF
  | otherF
deriving DecidableEq, Repr

/-- One step of `FreezeBase::freeze`: either recurse to the sender or stop
with a pinned result. -/
inductive FreezeStep where
  | recurse
  | pinned (r : FreezeResult)
deriving DecidableEq, Repr

/-- The per-frame classification of `FreezeBase::freeze` (lines 742-776):
a compiled frame without an oop map is a pinned native frame, else a
compiled frame owning locks pins on the monitor; an interpreted frame
owning locks pins on the monitor, else a native interpreter entry at a
preempted top pins as native; a stub frame is frozen only as a preempted
top; everything else is a pinned native frame. -/
def freeze_classify (f : FrameKind) (preempt top : Bool) : FreezeStep :=
  match f with
  | .compiledF has_oop_map owns_monitor =>
    if !has_oop_map then .pinned .freeze_pinned_native
    else if owns_monitor then .pinned .freeze_pinned_monitor
    else .recurse
  | .interpretedF is_native owns_monitor =>
    if owns_monitor then .pinned .freeze_pinned_monitor
    else if preempt && top && is_native then .pinned .freeze_pinned_native
    else .recurse
  | .stubF => if preempt && top then .recurse else .pinned .freeze_pinned_native
  | .otherF => .pinned .freeze_pinned_native

/-- The recursive walk of `FreezeBase::freeze` over the frames from the top
frame toward the entry: the first pinned frame determines the result; when
the entry is reached with no pinned frame the recursion ends in
`freeze_ok_bottom` (`finalize_freeze`). -/
def freeze_walk (preempt : Bool) (frames : List FrameKind) (top : Bool) : FreezeResult :=
  match frames with
  | [] => .freeze_ok_bottom
  | f :: rest =>
    match freeze_classify f preempt top with
    | .pinned r => r
    | .recurse => freeze_walk preempt rest false

/-- The committed state of the continuation object: its tail chunk (head of
the chunk list), published by `ContinuationWrapper::write()`. -/
structure ContState where
  tail : Option StackChunk

/-- Chunk-header effect of `FreezeBase::finalize_freeze` (lines 822-953).
`size0` is the accumulated frame size `_size` before the top frame's
metadata is added; `fresh` is the chunk `allocate_chunk_slow` would return
(`none` models allocation failure); `interp_adjust` is the (possibly
negative) `unextended_sp - sp` correction of an interpreted chunk-top
frame; `top_interpreted` is `Interpreter::contains(chunk->pc())`.  A new
chunk is allocated when there is no tail, the tail lacks room, is in GC
mode, or requires barriers not yet accounted; argument overlap applies
only when reusing a non-empty tail whose top frame has the callee's kind.
Every successful branch sets `HAS_MIXED_FRAMES` and grows `max_size` by
`_size - metadata_words`. -/
def finalize_freeze (tail : Option StackChunk) (size0 argsize : Nat)
    (callee_interpreted top_interpreted : Bool) (interp_adjust : Int)
    (barriers : Bool) (fresh : Option StackChunk) : Option StackChunk :=
  let size1 := size0 + metadata_words
  let init_fresh : StackChunk → StackChunk := fun c =>
    { c with
      sp := c.stack_size - argsize
      argsize := argsize
      has_mixed_frames := true
      max_size := c.max_size + size1 - metadata_words }
  match tail with
  | none => Option.map init_fresh fresh
  | some chunk =>
    let overlap :=
      if !chunk.is_empty && (callee_interpreted == top_interpreted) then argsize else 0
    let size := size1 - overlap
    let unextended_sp : Int :=
      (chunk.sp : Int) + (if !chunk.is_empty && top_interpreted then interp_adjust else 0)
    if unextended_sp < (size : Int) || chunk.is_gc_mode
        || (!barriers && chunk.requires_barriers) then
      Option.map init_fresh fresh
    else if chunk.is_empty then
      some { chunk with
        sp := chunk.stack_size - argsize
        argsize := argsize
        has_mixed_frames := true
        max_size := chunk.max_size + size1 - metadata_words }
    else
      some { chunk with
        has_mixed_frames := true
        max_size := chunk.max_size + size - metadata_words }

/-- Chunk-header effect of `FreezeBase::finish_freeze`: record the topmost
frozen frame's sp offset and pc in the chunk header and add the accumulated
alignment to `max_size`. -/
def finish_freeze_chunk (chunk : StackChunk) (top_sp_offset : Nat) (top_pc : Word)
    (align_size : Nat) : StackChunk :=
  { chunk with
    sp := top_sp_offset
    pc := top_pc
    max_size := chunk.max_size + align_size }

/-- Non-fast-path `freeze_internal` followed by `freeze_slow`: a pinned
critical section on the entry fails before anything runs; otherwise the
slow walk classifies every frame and only on `freeze_ok_bottom` does the
engine mutate the tail (`finalize_freeze`, `finish_freeze`) and publish it
with `cont.write()`.  Any pinned or failed outcome returns the state
untouched. -/
def freeze_internal_slow (st : ContState) (entry_pinned preempt : Bool)
    (frames : List FrameKind) (size0 argsize : Nat)
    (callee_interpreted top_interpreted : Bool) (interp_adjust : Int)
    (barriers : Bool) (fresh : Option StackChunk)
    (top_sp_offset : Nat) (top_pc : Word) (align_size : Nat) :
    FreezeResult × ContState :=
  if entry_pinned then
    (.freeze_pinned_cs, st)
  else
    match freeze_walk preempt frames true with
    | .freeze_ok_bottom =>
      match finalize_freeze st.tail size0 argsize callee_interpreted top_interpreted
          interp_adjust barriers fresh with
      | none => (.freeze_exception, st)
      | some c =>
        (.freeze_ok, { tail := some (finish_freeze_chunk c top_sp_offset top_pc align_size) })
    | r => (r, st)

/-! ## Helper lemmas -/

theorem freeze_fast_copy_sp (chunk : StackChunk) (s : Nat) (i : FreezeFastIn) :
    (freeze_fast_copy chunk s i).sp = s - i.cont_size := rfl

theorem freeze_fast_copy_max_size (chunk : StackChunk) (s : Nat) (i : FreezeFastIn) :
    (freeze_fast_copy chunk s i).max_size = chunk.max_size := rfl

theorem freeze_fast_copy_argsize (chunk : StackChunk) (s : Nat) (i : FreezeFastIn) :
    (freeze_fast_copy chunk s i).argsize = chunk.argsize := rfl

theorem freeze_fast_copy_pc (chunk : StackChunk) (s : Nat) (i : FreezeFastIn) :
    (freeze_fast_copy chunk s i).pc
      = i.nativeMem (i.cont_stack_top - sender_sp_ret_address_offset) := rfl

theorem freeze_fast_copy_mem (chunk : StackChunk) (s : Nat) (i : FreezeFastIn) (o : Nat) :
    (freeze_fast_copy chunk s i).mem o =
      if o = s - i.cont_size + i.cont_size - i.cont_argsize - sender_sp_ret_address_offset then
        chunk.pc
      else if s - i.cont_size - metadata_words ≤ o
          ∧ o < s - i.cont_size - metadata_words + (i.cont_size + metadata_words) then
        i.nativeMem (i.cont_stack_top - metadata_words + (o - (s - i.cont_size - metadata_words)))
      else chunk.mem o := by
  simp [freeze_fast_copy, copy_region, Function.update_apply]

theorem chunk_available_size (chunk : StackChunk) (a s : Nat)
    (h : is_chunk_available_for_fast_freeze (some chunk) a s = true) :
    (if chunk.sp < chunk.stack_size then s - a else s) ≤ chunk.sp - metadata_words := by
  simp only [is_chunk_available_for_fast_freeze] at h
  split_ifs at h with hflag hsp
  · rw [if_pos hsp]; exact of_decide_eq_true h
  · rw [if_neg hsp]; exact of_decide_eq_true h

theorem thaw_fast_chunk (chunk : StackChunk) (i : ThawFastIn) :
    (thaw_fast chunk i).chunk =
      if (decide (chunk.stack_size - chunk.sp < 500)
          || stream_done_after_top_frame chunk i.frame_size) then
        thaw_emptied chunk
      else thaw_advanced chunk i.frame_size := rfl

theorem thaw_fast_is_last (chunk : StackChunk) (i : ThawFastIn) :
    (thaw_fast chunk i).is_last =
      ((decide (chunk.stack_size - chunk.sp < 500)
          || stream_done_after_top_frame chunk i.frame_size) && !chunk.hasParent) := rfl

theorem thaw_fast_thaw_size (chunk : StackChunk) (i : ThawFastIn) :
    (thaw_fast chunk i).thaw_size =
      if decide (chunk.stack_size - chunk.sp < 500) then chunk.stack_size - chunk.sp
      else i.frame_size + i.frame_argsize := rfl

theorem thaw_fast_bottom_sp (chunk : StackChunk) (i : ThawFastIn) :
    (thaw_fast chunk i).bottom_sp =
      frame_align_pointer (i.entrySP -
        if decide (chunk.stack_size - chunk.sp < 500) then chunk.argsize
        else i.frame_argsize) := rfl

theorem thaw_fast_mem_patched (chunk : StackChunk) (i : ThawFastIn) :
    (thaw_fast chunk i).mem ((thaw_fast chunk i).bottom_sp - sender_sp_ret_address_offset)
      = if (thaw_fast chunk i).is_last then i.entryPC else i.returnBarrier := by
  simp [thaw_fast, Function.update_apply]

/-! ## Claim C1 -/

/-- Claim C1: a fast-path freeze into a non-empty reusable tail chunk
decreases the chunk's `sp` by exactly `cont_size - argsize` and increases
`max_size` by exactly `cont_size - argsize`, overwriting the top `argsize`
words of the chunk's previous top frame with the frozen bottom frame's
caller arguments; into an empty tail chunk, `sp` decreases by the full
`cont_size`, `max_size` is set to `cont_size` and `chunk.argsize` is set to
the continuation's `argsize`. -/
theorem freeze_fast_overlap_accounting (chunk : StackChunk) (i : FreezeFastIn)
    (havail : is_chunk_available_for_fast_freeze (some chunk) i.cont_argsize i.cont_size = true)
    (hargs : i.cont_argsize < i.cont_size) :
    (chunk.sp < chunk.stack_size →
      (freeze_fast_avail chunk i).sp + (i.cont_size - i.cont_argsize) = chunk.sp ∧
      (freeze_fast_avail chunk i).max_size
        = chunk.max_size + (i.cont_size - i.cont_argsize) ∧
      ∀ k < i.cont_argsize,
        (freeze_fast_avail chunk i).mem (chunk.sp + k)
          = i.nativeMem (i.cont_stack_top + (i.cont_size - i.cont_argsize) + k)) ∧
    (chunk.stack_size ≤ chunk.sp →
      (freeze_fast_avail chunk i).sp + i.cont_size = chunk.sp ∧
      (freeze_fast_avail chunk i).max_size = i.cont_size ∧
      (freeze_fast_avail chunk i).argsize = i.cont_argsize) := by
  have hsize := chunk_available_size chunk i.cont_argsize i.cont_size havail
  have hm : metadata_words = 2 := rfl
  have hso : sender_sp_ret_address_offset = 1 := rfl
  have hct : i.cont_stack_top = i.frame_sp + 2 := rfl
  constructor
  · intro hsp
    rw [if_pos hsp] at hsize
    have hroom : metadata_words + (i.cont_size - i.cont_argsize) ≤ chunk.sp := by omega
    unfold freeze_fast_avail
    rw [if_pos hsp]
    refine ⟨?_, ?_, ?_⟩
    · show chunk.sp + i.cont_argsize - i.cont_size + (i.cont_size - i.cont_argsize)
        = chunk.sp
      omega
    · show chunk.max_size + i.cont_size - i.cont_argsize
        = chunk.max_size + (i.cont_size - i.cont_argsize)
      omega
    · intro k hk
      rw [freeze_fast_copy_mem]
      rw [if_neg (by omega)]
      rw [if_pos (by constructor <;> omega)]
      have harg : i.cont_stack_top - metadata_words
          + (chunk.sp + k - (chunk.sp + i.cont_argsize - i.cont_size - metadata_words))
          = i.cont_stack_top + (i.cont_size - i.cont_argsize) + k := by omega
      rw [harg]
  · intro hsp
    rw [if_neg (by omega)] at hsize
    unfold freeze_fast_avail
    rw [if_neg (by omega)]
    refine ⟨?_, rfl, rfl⟩
    show chunk.sp - i.cont_size + i.cont_size = chunk.sp
    omega

/-- Witness for Claim C1 at a concrete non-empty tail chunk. -/
theorem freeze_fast_overlap_accounting_witness :
    let chunk : StackChunk :=
      { stack_size := 100, sp := 50, argsize := 4, max_size := 50, pc := 77
        hasParent := false, has_mixed_frames := false, is_gc_mode := false
        has_bitmap := false, requires_barriers := false, mem := fun _ => 0 }
    let i : FreezeFastIn :=
      { nativeMem := fun a => a, frame_sp := 1000, cont_size := 10, cont_argsize := 4 }
    (chunk.sp < chunk.stack_size →
      (freeze_fast_avail chunk i).sp + (i.cont_size - i.cont_argsize) = chunk.sp ∧
      (freeze_fast_avail chunk i).max_size
        = chunk.max_size + (i.cont_size - i.cont_argsize) ∧
      ∀ k < i.cont_argsize,
        (freeze_fast_avail chunk i).mem (chunk.sp + k)
          = i.nativeMem (i.cont_stack_top + (i.cont_size - i.cont_argsize) + k)) ∧
    (chunk.stack_size ≤ chunk.sp →
      (freeze_fast_avail chunk i).sp + i.cont_size = chunk.sp ∧
      (freeze_fast_avail chunk i).max_size = i.cont_size ∧
      (freeze_fast_avail chunk i).argsize = i.cont_argsize) :=
  freeze_fast_overlap_accounting _ _ (by decide) (by decide)

/-! ## Claim C2 -/

/-- Claim C2: after the fast freeze path (reusing or allocating a chunk)
and after the fast thaw path, a non-empty chunk stores `chunk.pc` in the
return-pc slot at offset `sp - 1`: both paths re-establish the equality
when they update `sp` and `pc`. -/
theorem nonempty_chunk_pc_slot (chunk : StackChunk) (i : FreezeFastIn)
    (hp : Bool) (a : AllocOutcome) (c : StackChunk) (it : ThawFastIn) :
    (is_chunk_available_for_fast_freeze (some chunk) i.cont_argsize i.cont_size = true →
      i.cont_argsize < i.cont_size →
      (freeze_fast_avail chunk i).mem
          ((freeze_fast_avail chunk i).sp - sender_sp_ret_address_offset)
        = (freeze_fast_avail chunk i).pc) ∧
    (freeze_fast_alloc hp i a = some c → i.cont_argsize < i.cont_size →
      c.mem (c.sp - sender_sp_ret_address_offset) = c.pc) ∧
    ((thaw_fast chunk it).chunk.is_empty = false →
      (thaw_fast chunk it).chunk.mem
          ((thaw_fast chunk it).chunk.sp - sender_sp_ret_address_offset)
        = (thaw_fast chunk it).chunk.pc) := by
  have hm : metadata_words = 2 := rfl
  have hso : sender_sp_ret_address_offset = 1 := rfl
  have hct : i.cont_stack_top = i.frame_sp + 2 := rfl
  refine ⟨?_, ?_, ?_⟩
  · intro havail hargs
    have hsize := chunk_available_size chunk i.cont_argsize i.cont_size havail
    by_cases hsp : chunk.sp < chunk.stack_size
    · rw [if_pos hsp] at hsize
      unfold freeze_fast_avail
      rw [if_pos hsp, freeze_fast_copy_sp, freeze_fast_copy_pc, freeze_fast_copy_mem]
      rw [if_neg (by omega), if_pos (by constructor <;> omega)]
      congr 1
      omega
    · rw [if_neg hsp] at hsize
      unfold freeze_fast_avail
      rw [if_neg hsp, freeze_fast_copy_sp, freeze_fast_copy_pc, freeze_fast_copy_mem]
      rw [if_neg (by omega), if_pos (by constructor <;> omega)]
      congr 1
      omega
  · intro hsucc hargs
    unfold freeze_fast_alloc at hsucc
    split_ifs at hsucc with habandon
    simp only [Option.some.injEq] at hsucc
    subst hsucc
    rw [freeze_fast_copy_sp, freeze_fast_copy_pc, freeze_fast_copy_mem]
    rw [if_neg (by omega), if_pos (by constructor <;> omega)]
    congr 1
    omega
  · intro hne
    by_cases hempty : (decide (chunk.stack_size - chunk.sp < 500)
        || stream_done_after_top_frame chunk it.frame_size) = true
    · rw [thaw_fast_chunk, if_pos hempty] at hne
      exact absurd hne (by simp [thaw_emptied, StackChunk.is_empty])
    · rw [thaw_fast_chunk, if_neg hempty]
      simp [thaw_advanced]

/-- Witness for Claim C2 at concrete freeze and thaw inputs. -/
theorem nonempty_chunk_pc_slot_witness :
    let chunk : StackChunk :=
      { stack_size := 600, sp := 50, argsize := 4, max_size := 550, pc := 77
        hasParent := false, has_mixed_frames := false, is_gc_mode := false
        has_bitmap := false, requires_barriers := false, mem := fun o => 1000 + o }
    let i : FreezeFastIn :=
      { nativeMem := fun a => a, frame_sp := 5000, cont_size := 10, cont_argsize := 4 }
    let a : AllocOutcome :=
      { success := true, fastpath_kept := true, barriers := false, mem0 := fun _ => 0 }
    let c : StackChunk :=
      freeze_fast_copy
        { allocate_chunk (i.cont_size + metadata_words) false a with
          max_size := i.cont_size, argsize := i.cont_argsize }
        (i.cont_size + metadata_words) i
    let it : ThawFastIn :=
      { entrySP := 9000, entryPC := 111, returnBarrier := 222
        nativeMem := fun a => a, frame_size := 100, frame_argsize := 4 }
    (freeze_fast_avail chunk i).mem
        ((freeze_fast_avail chunk i).sp - sender_sp_ret_address_offset)
      = (freeze_fast_avail chunk i).pc ∧
    c.mem (c.sp - sender_sp_ret_address_offset) = c.pc ∧
    (thaw_fast chunk it).chunk.mem
        ((thaw_fast chunk it).chunk.sp - sender_sp_ret_address_offset)
      = (thaw_fast chunk it).chunk.pc := by
  intro chunk i a c it
  obtain ⟨h1, h2, h3⟩ := nonempty_chunk_pc_slot chunk i false a c it
  exact ⟨h1 (by decide) (by decide), h2 rfl (by decide), h3 (by decide)⟩

/-! ## Claim C3 -/

/-- Claim C3: after a fast thaw, the return-pc slot of the bottom-most
thawed frame on the native stack holds either the continuation entry's
true pc or the synthetic return-barrier stub address, never any other
value; it holds the entry pc exactly when the thawed frames were the
continuation's last content, i.e. the tail chunk became empty and has no
parent. -/
theorem thaw_bottom_return_pc (chunk : StackChunk) (i : ThawFastIn)
    (hne : i.entryPC ≠ i.returnBarrier) :
    ((thaw_fast chunk i).mem
        ((thaw_fast chunk i).bottom_sp - sender_sp_ret_address_offset) = i.entryPC
      ∨ (thaw_fast chunk i).mem
        ((thaw_fast chunk i).bottom_sp - sender_sp_ret_address_offset) = i.returnBarrier) ∧
    ((thaw_fast chunk i).mem
        ((thaw_fast chunk i).bottom_sp - sender_sp_ret_address_offset) = i.entryPC ↔
      (thaw_fast chunk i).chunk.is_empty = true ∧ chunk.hasParent = false) := by
  have hslot := thaw_fast_mem_patched chunk i
  have hlast := thaw_fast_is_last chunk i
  have hempty : (thaw_fast chunk i).chunk.is_empty
      = (decide (chunk.stack_size - chunk.sp < 500)
          || stream_done_after_top_frame chunk i.frame_size) := by
    rw [thaw_fast_chunk]
    by_cases h : (decide (chunk.stack_size - chunk.sp < 500)
        || stream_done_after_top_frame chunk i.frame_size) = true
    · rw [if_pos h, h]
      simp [thaw_emptied, StackChunk.is_empty]
    · rw [if_neg h]
      simp only [Bool.or_eq_true, not_or, Bool.not_eq_true] at h
      obtain ⟨h1, h2⟩ := h
      simp only [stream_done_after_top_frame, decide_eq_false_iff_not, not_le] at h2
      rw [Bool.or_eq_false_iff.mpr ⟨h1, by
        simp only [stream_done_after_top_frame, decide_eq_false_iff_not, not_le]
        omega⟩]
      simp only [thaw_advanced, StackChunk.is_empty]
      simp only [decide_eq_false_iff_not, not_le]
      omega
  constructor
  · cases h : (thaw_fast chunk i).is_last
    · right; rw [hslot, if_neg (by simp [h])]
    · left; rw [hslot, if_pos (by simp [h])]
  · cases hE : (decide (chunk.stack_size - chunk.sp < 500)
        || stream_done_after_top_frame chunk i.frame_size) <;>
      cases hP : chunk.hasParent <;>
      simp [hslot, hlast, hempty, hE, hP, hne, Ne.symm hne]

/-- Witness for Claim C3: a bulk thaw of a parentless chunk installs the
entry pc. -/
theorem thaw_bottom_return_pc_witness :
    let chunk : StackChunk :=
      { stack_size := 600, sp := 580, argsize := 3, max_size := 20, pc := 77
        hasParent := false, has_mixed_frames := false, is_gc_mode := false
        has_bitmap := false, requires_barriers := false, mem := fun o => 1000 + o }
    let i : ThawFastIn :=
      { entrySP := 9000, entryPC := 111, returnBarrier := 222
        nativeMem := fun a => a, frame_size := 10, frame_argsize := 3 }
    ((thaw_fast chunk i).mem
        ((thaw_fast chunk i).bottom_sp - sender_sp_ret_address_offset) = i.entryPC
      ∨ (thaw_fast chunk i).mem
        ((thaw_fast chunk i).bottom_sp - sender_sp_ret_address_offset) = i.returnBarrier) ∧
    ((thaw_fast chunk i).mem
        ((thaw_fast chunk i).bottom_sp - sender_sp_ret_address_offset) = i.entryPC ↔
      (thaw_fast chunk i).chunk.is_empty = true ∧ chunk.hasParent = false) := by
  intro chunk i
  exact thaw_bottom_return_pc chunk i (by decide)

/-! ## Claim C5 -/

/-- Claim C5, counterexample to the claim as stated: when the live size is
at least the 500-word threshold and the single thawed frame is the last one
in the chunk, the code empties the chunk (`sp := stack_size`, `max_size :=
0`) instead of advancing `sp` by the frame size and decrementing `max_size`
by it. -/
theorem thaw_fast_single_frame_counterexample :
    let chunk : StackChunk :=
      { stack_size := 600, sp := 50, argsize := 10, max_size := 550, pc := 77
        hasParent := true, has_mixed_frames := false, is_gc_mode := false
        has_bitmap := false, requires_barriers := false, mem := fun o => 1000 + o }
    let i : ThawFastIn :=
      { entrySP := 9000, entryPC := 111, returnBarrier := 222
        nativeMem := fun a => a, frame_size := 540, frame_argsize := 10 }
    ¬(chunk.stack_size - chunk.sp < 500) ∧
    (thaw_fast chunk i).chunk.sp ≠ chunk.sp + i.frame_size ∧
    (thaw_fast chunk i).chunk.max_size ≠ chunk.max_size - i.frame_size := by
  refine ⟨by decide, ?_, ?_⟩ <;> decide

/-- Claim C5 as amended: on a fast-path thaw, when the chunk's live size
`stack_size - sp` is below the 500-word threshold the whole chunk is thawed
(`thaw_size = full_chunk_size`) and the chunk is left empty with
`sp = stack_size`, `argsize = 0`, `max_size = 0`; otherwise exactly one
compiled frame plus its stack arguments is thawed (`thaw_size = frame_size
+ frame_argsize`), and — unless that frame was the last one in the chunk —
`chunk.sp` is advanced by the frame's size, `chunk.max_size` is decremented
by it, and `chunk.pc` is set to the return pc into the next frame; when the
single thawed frame was the last one, the chunk is emptied
(`sp = stack_size`, `argsize = 0`, `max_size = 0`) instead. -/
theorem thaw_fast_bulk_or_single (chunk : StackChunk) (i : ThawFastIn) :
    (chunk.stack_size - chunk.sp < 500 →
      (thaw_fast chunk i).thaw_size = chunk.stack_size - chunk.sp ∧
      (thaw_fast chunk i).chunk.sp = chunk.stack_size ∧
      (thaw_fast chunk i).chunk.argsize = 0 ∧
      (thaw_fast chunk i).chunk.max_size = 0) ∧
    (¬(chunk.stack_size - chunk.sp < 500) →
      stream_done_after_top_frame chunk i.frame_size = false →
      (thaw_fast chunk i).thaw_size = i.frame_size + i.frame_argsize ∧
      (thaw_fast chunk i).chunk.sp = chunk.sp + i.frame_size ∧
      (thaw_fast chunk i).chunk.max_size = chunk.max_size - i.frame_size ∧
      (thaw_fast chunk i).chunk.pc
        = chunk.mem (chunk.sp + i.frame_size - sender_sp_ret_address_offset)) ∧
    (¬(chunk.stack_size - chunk.sp < 500) →
      stream_done_after_top_frame chunk i.frame_size = true →
      (thaw_fast chunk i).thaw_size = i.frame_size + i.frame_argsize ∧
      (thaw_fast chunk i).chunk.sp = chunk.stack_size ∧
      (thaw_fast chunk i).chunk.argsize = 0 ∧
      (thaw_fast chunk i).chunk.max_size = 0) := by
  refine ⟨?_, ?_, ?_⟩
  · intro hbulk
    have hb : decide (chunk.stack_size - chunk.sp < 500) = true := by simpa using hbulk
    simp [thaw_fast_thaw_size, thaw_fast_chunk, hb, thaw_emptied]
  · intro hbulk hdone
    have hb : decide (chunk.stack_size - chunk.sp < 500) = false := by simpa using hbulk
    simp [thaw_fast_thaw_size, thaw_fast_chunk, hb, hdone, thaw_advanced]
  · intro hbulk hdone
    have hb : decide (chunk.stack_size - chunk.sp < 500) = false := by simpa using hbulk
    simp [thaw_fast_thaw_size, thaw_fast_chunk, hb, hdone, thaw_emptied]

/-- Witness for Claim C5 (amended) in all three regimes. -/
theorem thaw_fast_bulk_or_single_witness :
    let bulkChunk : StackChunk :=
      { stack_size := 600, sp := 580, argsize := 3, max_size := 20, pc := 77
        hasParent := true, has_mixed_frames := false, is_gc_mode := false
        has_bitmap := false, requires_barriers := false, mem := fun o => 1000 + o }
    let midChunk : StackChunk :=
      { stack_size := 600, sp := 50, argsize := 10, max_size := 550, pc := 77
        hasParent := true, has_mixed_frames := false, is_gc_mode := false
        has_bitmap := false, requires_barriers := false, mem := fun o => 1000 + o }
    let i : ThawFastIn :=
      { entrySP := 9000, entryPC := 111, returnBarrier := 222
        nativeMem := fun a => a, frame_size := 100, frame_argsize := 4 }
    let iLast : ThawFastIn :=
      { entrySP := 9000, entryPC := 111, returnBarrier := 222
        nativeMem := fun a => a, frame_size := 540, frame_argsize := 10 }
    ((thaw_fast bulkChunk i).thaw_size = bulkChunk.stack_size - bulkChunk.sp ∧
      (thaw_fast bulkChunk i).chunk.sp = bulkChunk.stack_size ∧
      (thaw_fast bulkChunk i).chunk.argsize = 0 ∧
      (thaw_fast bulkChunk i).chunk.max_size = 0) ∧
    ((thaw_fast midChunk i).thaw_size = i.frame_size + i.frame_argsize ∧
      (thaw_fast midChunk i).chunk.sp = midChunk.sp + i.frame_size ∧
      (thaw_fast midChunk i).chunk.max_size = midChunk.max_size - i.frame_size ∧
      (thaw_fast midChunk i).chunk.pc
        = midChunk.mem (midChunk.sp + i.frame_size - sender_sp_ret_address_offset)) ∧
    ((thaw_fast midChunk iLast).thaw_size = iLast.frame_size + iLast.frame_argsize ∧
      (thaw_fast midChunk iLast).chunk.sp = midChunk.stack_size ∧
      (thaw_fast midChunk iLast).chunk.argsize = 0 ∧
      (thaw_fast midChunk iLast).chunk.max_size = 0) := by
  intro bulkChunk midChunk i iLast
  exact ⟨(thaw_fast_bulk_or_single bulkChunk i).1 (by decide),
    (thaw_fast_bulk_or_single midChunk i).2.1 (by decide) (by decide),
    (thaw_fast_bulk_or_single midChunk iLast).2.2 (by decide) (by decide)⟩

/-! ## Claim C4 -/

/-- The spec's emptiness equivalence (§3 invariant 1): a chunk is empty iff
`sp = stack_size` iff `max_size = 0`. -/
def chunk_empty_equiv (c : StackChunk) : Prop :=
  (c.is_empty = true ↔ c.sp = c.stack_size) ∧ (c.is_empty = true ↔ c.max_size = 0)

theorem freeze_fast_copy_stack_size (chunk : StackChunk) (s : Nat) (i : FreezeFastIn) :
    (freeze_fast_copy chunk s i).stack_size = chunk.stack_size := rfl

theorem chunk_empty_equiv_of_nonempty (c : StackChunk)
    (h1 : c.sp < c.stack_size) (h2 : c.max_size ≠ 0) : chunk_empty_equiv c := by
  have he : c.is_empty = false := by
    simp only [StackChunk.is_empty, decide_eq_false_iff_not, not_le]; omega
  refine ⟨⟨?_, ?_⟩, ⟨?_, ?_⟩⟩ <;> intro h <;> simp [he] at h ⊢ <;> omega

theorem chunk_empty_equiv_of_empty (c : StackChunk)
    (h1 : c.sp = c.stack_size) (h2 : c.max_size = 0) : chunk_empty_equiv c := by
  have he : c.is_empty = true := by
    simp only [StackChunk.is_empty, decide_eq_true_eq]; omega
  exact ⟨⟨fun _ => h1, fun _ => he⟩, ⟨fun _ => h2, fun _ => he⟩⟩

/-- Fast-path chunks satisfy `max_size + sp = stack_size`; the reusing fast
freeze preserves this relation. -/
theorem freeze_fast_avail_max_sp (chunk : StackChunk) (i : FreezeFastIn)
    (hMax : chunk.max_size + chunk.sp = chunk.stack_size)
    (havail : is_chunk_available_for_fast_freeze (some chunk) i.cont_argsize i.cont_size = true)
    (hargs : i.cont_argsize < i.cont_size) :
    (freeze_fast_avail chunk i).max_size + (freeze_fast_avail chunk i).sp
      = (freeze_fast_avail chunk i).stack_size := by
  have hsize := chunk_available_size chunk i.cont_argsize i.cont_size havail
  have hm : metadata_words = 2 := rfl
  by_cases hsp : chunk.sp < chunk.stack_size
  · rw [if_pos hsp] at hsize
    unfold freeze_fast_avail
    rw [if_pos hsp]
    show chunk.max_size + i.cont_size - i.cont_argsize
        + (chunk.sp + i.cont_argsize - i.cont_size) = chunk.stack_size
    omega
  · rw [if_neg hsp] at hsize
    unfold freeze_fast_avail
    rw [if_neg hsp]
    show i.cont_size + (chunk.sp - i.cont_size) = chunk.stack_size
    omega

/-- A freshly allocated fast-frozen chunk satisfies
`max_size + sp = stack_size`. -/
theorem freeze_fast_alloc_max_sp (hp : Bool) (i : FreezeFastIn) (a : AllocOutcome)
    (c : StackChunk) (hsucc : freeze_fast_alloc hp i a = some c) :
    c.max_size + c.sp = c.stack_size := by
  unfold freeze_fast_alloc at hsucc
  split_ifs at hsucc
  simp only [Option.some.injEq] at hsucc
  subst hsucc
  show i.cont_size + (i.cont_size + metadata_words - i.cont_size)
      = i.cont_size + metadata_words
  omega

/-- The fast thaw preserves `max_size + sp = stack_size`. -/
theorem thaw_fast_max_sp (chunk : StackChunk) (it : ThawFastIn)
    (hMax : chunk.max_size + chunk.sp = chunk.stack_size) :
    (thaw_fast chunk it).chunk.max_size + (thaw_fast chunk it).chunk.sp
      = (thaw_fast chunk it).chunk.stack_size := by
  rw [thaw_fast_chunk]
  by_cases h : (decide (chunk.stack_size - chunk.sp < 500)
      || stream_done_after_top_frame chunk it.frame_size) = true
  · rw [if_pos h]
    show 0 + chunk.stack_size = chunk.stack_size
    omega
  · rw [if_neg h]
    simp only [Bool.or_eq_true, not_or, Bool.not_eq_true,
      stream_done_after_top_frame, decide_eq_false_iff_not, not_lt, not_le] at h
    show chunk.max_size - it.frame_size + (chunk.sp + it.frame_size) = chunk.stack_size
    omega

/-- Claim C4: the equivalence "chunk empty ⇔ sp = stack_size ⇔ max_size =
0" is preserved by the fast freeze (reuse and allocation), by the fast
thaw, and by `finish_thaw`; any of these that empties a chunk sets
`sp = stack_size`, `argsize = 0` and `max_size = 0` together.  The fast
thaw case uses the fast-path relation `max_size + sp = stack_size`, which
`freeze_fast_avail_max_sp`, `freeze_fast_alloc_max_sp` and
`thaw_fast_max_sp` show to hold of every fast-path chunk; the `finish_thaw`
case uses the code's own assertion (line 2116) that the accumulated
alignment is strictly below a non-empty chunk's `max_size`. -/
theorem freeze_thaw_empty_equivalence (chunk : StackChunk) (i : FreezeFastIn)
    (hp : Bool) (a : AllocOutcome) (c : StackChunk) (it : ThawFastIn)
    (seen_by_gc : Bool) (align_size : Nat) :
    (chunk.sp ≤ chunk.stack_size → chunk_empty_equiv chunk →
      is_chunk_available_for_fast_freeze (some chunk) i.cont_argsize i.cont_size = true →
      i.cont_argsize < i.cont_size →
      chunk_empty_equiv (freeze_fast_avail chunk i)) ∧
    (freeze_fast_alloc hp i a = some c → 0 < i.cont_size → chunk_empty_equiv c) ∧
    (chunk.sp ≤ chunk.stack_size → chunk.max_size + chunk.sp = chunk.stack_size →
      chunk_empty_equiv (thaw_fast chunk it).chunk ∧
      ((thaw_fast chunk it).chunk.is_empty = true →
        (thaw_fast chunk it).chunk.sp = (thaw_fast chunk it).chunk.stack_size ∧
        (thaw_fast chunk it).chunk.argsize = 0 ∧
        (thaw_fast chunk it).chunk.max_size = 0)) ∧
    (chunk.sp ≤ chunk.stack_size → chunk_empty_equiv chunk →
      (chunk.is_empty = false → align_size < chunk.max_size) →
      chunk_empty_equiv (finish_thaw_chunk chunk seen_by_gc align_size).1 ∧
      ((finish_thaw_chunk chunk seen_by_gc align_size).1.is_empty = true →
        (finish_thaw_chunk chunk seen_by_gc align_size).1.max_size = 0)) := by
  have hm : metadata_words = 2 := rfl
  refine ⟨?_, ?_, ?_, ?_⟩
  · intro hwf hinv havail hargs
    have hsize := chunk_available_size chunk i.cont_argsize i.cont_size havail
    by_cases hsp : chunk.sp < chunk.stack_size
    · rw [if_pos hsp] at hsize
      have hmax0 : chunk.max_size ≠ 0 := by
        intro h0
        have he := hinv.2.mpr h0
        simp only [StackChunk.is_empty, decide_eq_true_eq] at he
        omega
      unfold freeze_fast_avail
      rw [if_pos hsp]
      refine chunk_empty_equiv_of_nonempty _ ?_ ?_
      · rw [freeze_fast_copy_sp, freeze_fast_copy_stack_size]
        show chunk.sp + i.cont_argsize - i.cont_size < chunk.stack_size
        omega
      · show chunk.max_size + i.cont_size - i.cont_argsize ≠ 0
        omega
    · rw [if_neg hsp] at hsize
      unfold freeze_fast_avail
      rw [if_neg hsp]
      refine chunk_empty_equiv_of_nonempty _ ?_ ?_
      · rw [freeze_fast_copy_sp, freeze_fast_copy_stack_size]
        show chunk.sp - i.cont_size < chunk.stack_size
        omega
      · show i.cont_size ≠ 0
        omega
  · intro hsucc hpos
    unfold freeze_fast_alloc at hsucc
    split_ifs at hsucc
    simp only [Option.some.injEq] at hsucc
    subst hsucc
    refine chunk_empty_equiv_of_nonempty _ ?_ ?_
    · show i.cont_size + metadata_words - i.cont_size < i.cont_size + metadata_words
      omega
    · show i.cont_size ≠ 0
      omega
  · intro hwf hMax
    rw [thaw_fast_chunk]
    by_cases h : (decide (chunk.stack_size - chunk.sp < 500)
        || stream_done_after_top_frame chunk it.frame_size) = true
    · rw [if_pos h]
      refine ⟨chunk_empty_equiv_of_empty _ rfl rfl, fun _ => ⟨rfl, rfl, rfl⟩⟩
    · rw [if_neg h]
      simp only [Bool.or_eq_true, not_or, Bool.not_eq_true,
        stream_done_after_top_frame, decide_eq_false_iff_not, not_lt, not_le] at h
      have hR : chunk_empty_equiv (thaw_advanced chunk it.frame_size) := by
        refine chunk_empty_equiv_of_nonempty _ ?_ ?_
        · show chunk.sp + it.frame_size < chunk.stack_size
          omega
        · show chunk.max_size - it.frame_size ≠ 0
          omega
      refine ⟨hR, fun hcontra => ?_⟩
      exfalso
      have := hR.1.mp hcontra
      simp only [thaw_advanced] at this
      omega
  · intro hwf hinv hgrow
    unfold finish_thaw_chunk
    by_cases he : chunk.is_empty = true
    · have hsp := hinv.1.mp he
      rw [if_pos he]
      by_cases hseen : seen_by_gc = true
      · rw [if_pos hseen]
        exact ⟨chunk_empty_equiv_of_empty _ hsp rfl, fun _ => rfl⟩
      · rw [if_neg hseen]
        exact ⟨chunk_empty_equiv_of_empty _ hsp rfl, fun _ => rfl⟩
    · have hsp : chunk.sp < chunk.stack_size := by
        rcases Nat.lt_or_ge chunk.sp chunk.stack_size with h | h
        · exact h
        · exact absurd (by simp [StackChunk.is_empty]; omega) he
      have hgrow' := hgrow (Bool.not_eq_true _ ▸ he)
      rw [if_neg he]
      have hR : chunk_empty_equiv
          ({ chunk with max_size := chunk.max_size - align_size } : StackChunk) := by
        refine chunk_empty_equiv_of_nonempty _ hsp ?_
        show chunk.max_size - align_size ≠ 0
        omega
      refine ⟨hR, fun hcontra => ?_⟩
      exfalso
      have := hR.1.mp hcontra
      simp only at this
      omega

/-- Witness for Claim C4 at a concrete fast-path chunk. -/
theorem freeze_thaw_empty_equivalence_witness :
    let chunkW : StackChunk :=
      { stack_size := 100, sp := 50, argsize := 4, max_size := 50, pc := 0
        hasParent := false, has_mixed_frames := false, is_gc_mode := false
        has_bitmap := false, requires_barriers := false, mem := fun _ => 0 }
    let i : FreezeFastIn :=
      { nativeMem := fun a => a, frame_sp := 1000, cont_size := 10, cont_argsize := 4 }
    let a : AllocOutcome :=
      { success := true, fastpath_kept := true, barriers := false, mem0 := fun _ => 0 }
    let c : StackChunk :=
      freeze_fast_copy
        { allocate_chunk (i.cont_size + metadata_words) false a with
          max_size := i.cont_size, argsize := i.cont_argsize }
        (i.cont_size + metadata_words) i
    let it : ThawFastIn :=
      { entrySP := 9000, entryPC := 111, returnBarrier := 222
        nativeMem := fun a => a, frame_size := 20, frame_argsize := 4 }
    chunk_empty_equiv (freeze_fast_avail chunkW i) ∧
    chunk_empty_equiv c ∧
    (chunk_empty_equiv (thaw_fast chunkW it).chunk ∧
      ((thaw_fast chunkW it).chunk.is_empty = true →
        (thaw_fast chunkW it).chunk.sp = (thaw_fast chunkW it).chunk.stack_size ∧
        (thaw_fast chunkW it).chunk.argsize = 0 ∧
        (thaw_fast chunkW it).chunk.max_size = 0)) ∧
    (chunk_empty_equiv (finish_thaw_chunk chunkW false 3).1 ∧
      ((finish_thaw_chunk chunkW false 3).1.is_empty = true →
        (finish_thaw_chunk chunkW false 3).1.max_size = 0)) := by
  intro chunkW i a c it
  obtain ⟨h1, h2, h3, h4⟩ := freeze_thaw_empty_equivalence chunkW i false a c it false 3
  exact ⟨h1 (by decide) ⟨by decide, by decide⟩ (by decide) (by decide),
    h2 rfl (by decide), h3 (by decide) (by decide),
    h4 (by decide) ⟨by decide, by decide⟩ (by decide)⟩

/-! ## Claim C6 -/

/-- Claim C6: whenever freeze returns a pinned code (`PINNED_CS`,
`PINNED_NATIVE` or `PINNED_MONITOR`), the continuation object and its
chunk list are exactly as before the call: the commit happens only on the
`freeze_ok` result. -/
theorem pinned_freeze_is_atomic (st : ContState) (entry_pinned preempt : Bool)
    (frames : List FrameKind) (size0 argsize : Nat)
    (callee_interpreted top_interpreted : Bool) (interp_adjust : Int)
    (barriers : Bool) (fresh : Option StackChunk)
    (top_sp_offset : Nat) (top_pc : Word) (align_size : Nat)
    (hpin : (freeze_internal_slow st entry_pinned preempt frames size0 argsize
        callee_interpreted top_interpreted interp_adjust barriers fresh
        top_sp_offset top_pc align_size).1 = .freeze_pinned_cs ∨
      (freeze_internal_slow st entry_pinned preempt frames size0 argsize
        callee_interpreted top_interpreted interp_adjust barriers fresh
        top_sp_offset top_pc align_size).1 = .freeze_pinned_native ∨
      (freeze_internal_slow st entry_pinned preempt frames size0 argsize
        callee_interpreted top_interpreted interp_adjust barriers fresh
        top_sp_offset top_pc align_size).1 = .freeze_pinned_monitor) :
    (freeze_internal_slow st entry_pinned preempt frames size0 argsize
      callee_interpreted top_interpreted interp_adjust barriers fresh
      top_sp_offset top_pc align_size).2 = st := by
  unfold freeze_internal_slow at hpin ⊢
  split_ifs at hpin ⊢ with hep
  · rfl
  · cases hw : freeze_walk preempt frames true <;> simp only [hw] at hpin ⊢
    cases hf : finalize_freeze st.tail size0 argsize callee_interpreted top_interpreted
        interp_adjust barriers fresh <;> simp [hf] at hpin

/-- Witness for Claim C6: a monitor-owning interpreted frame pins the
freeze and the state is returned untouched. -/
theorem pinned_freeze_is_atomic_witness :
    (freeze_internal_slow ⟨none⟩ false false [.interpretedF false true] 7 3
      false false 0 false none 2 55 1).2 = (⟨none⟩ : ContState) :=
  pinned_freeze_is_atomic ⟨none⟩ false false [.interpretedF false true] 7 3
    false false 0 false none 2 55 1 (by decide)

/-! ## Claim C7 -/

/-- Claim C7, counterexample to the claim as stated: an interpreted
native-method frame that also owns a monitor, met as the preempted top
frame, is classified `PINNED_MONITOR` by the code (the monitor check comes
first, lines 762-768), while the claim's rule "an interpreted frame that
is a native-method frame yields PINNED_NATIVE" demands `PINNED_NATIVE`. -/
theorem freeze_classify_counterexample :
    freeze_classify (.interpretedF true true) true true
        = .pinned .freeze_pinned_monitor ∧
      freeze_classify (.interpretedF true true) true true
        ≠ .pinned .freeze_pinned_native := by
  exact ⟨rfl, by decide⟩

/-- Claim C7 as amended: the slow freeze path classifies each visited
frame in the code's order: a compiled frame without an oop map yields
PINNED_NATIVE (even if it owns a monitor); a compiled frame with an oop
map owning a monitor yields PINNED_MONITOR; an interpreted frame owning a
monitor yields PINNED_MONITOR (even if it is a native-method frame); an
interpreted native-method frame not owning a monitor yields PINNED_NATIVE
when it is the preempted top frame; a stub frame other than a preempted
top, and any other unfreezable frame, yields PINNED_NATIVE; and the code
returned by freeze is determined by the first such frame met walking from
the top frame toward the entry. -/
theorem freeze_classify_table (p t : Bool) (f : FrameKind) (rest : List FrameKind) :
    (∀ m, freeze_classify (.compiledF false m) p t = .pinned .freeze_pinned_native) ∧
    (freeze_classify (.compiledF true true) p t = .pinned .freeze_pinned_monitor) ∧
    (∀ n, freeze_classify (.interpretedF n true) p t = .pinned .freeze_pinned_monitor) ∧
    (freeze_classify (.interpretedF true false) p t
      = if p && t then .pinned .freeze_pinned_native else .recurse) ∧
    (freeze_classify .stubF p t
      = if p && t then .recurse else .pinned .freeze_pinned_native) ∧
    (freeze_classify .otherF p t = .pinned .freeze_pinned_native) ∧
    (∀ r, freeze_classify f p t = .pinned r → freeze_walk p (f :: rest) t = r) ∧
    (freeze_classify f p t = .recurse →
      freeze_walk p (f :: rest) t = freeze_walk p rest false) := by
  refine ⟨fun m => rfl, rfl, fun n => rfl, ?_, ?_, rfl, ?_, ?_⟩
  · cases p <;> cases t <;> rfl
  · cases p <;> cases t <;> rfl
  · intro r h
    simp [freeze_walk, h]
  · intro h
    simp [freeze_walk, h]

/-- Witness for Claim C7 (amended) at concrete flags and frames. -/
theorem freeze_classify_table_witness :
    (∀ m, freeze_classify (.compiledF false m) true true
      = .pinned .freeze_pinned_native) ∧
    (freeze_classify (.compiledF true true) true true
      = .pinned .freeze_pinned_monitor) ∧
    (∀ n, freeze_classify (.interpretedF n true) true true
      = .pinned .freeze_pinned_monitor) ∧
    (freeze_classify (.interpretedF true false) true true
      = if true && true then .pinned .freeze_pinned_native else .recurse) ∧
    (freeze_classify .stubF true true
      = if true && true then .recurse else .pinned .freeze_pinned_native) ∧
    (freeze_classify .otherF true true = .pinned .freeze_pinned_native) ∧
    (∀ r, freeze_classify (.compiledF true true) true true = .pinned r →
      freeze_walk true (.compiledF true true :: [.otherF]) true = r) ∧
    (freeze_classify (.compiledF true false) true true = .recurse →
      freeze_walk true (.compiledF true false :: [.otherF]) true
        = freeze_walk true [.otherF] false) := by
  refine ⟨?_, ?_, ?_, ?_, ?_, ?_, ?_, ?_⟩
  · exact (freeze_classify_table true true (.compiledF true true) [.otherF]).1
  · exact (freeze_classify_table true true (.compiledF true true) [.otherF]).2.1
  · exact (freeze_classify_table true true (.compiledF true true) [.otherF]).2.2.1
  · exact (freeze_classify_table true true (.compiledF true true) [.otherF]).2.2.2.1
  · exact (freeze_classify_table true true (.compiledF true true) [.otherF]).2.2.2.2.1
  · exact (freeze_classify_table true true (.compiledF true true) [.otherF]).2.2.2.2.2.1
  · exact (freeze_classify_table true true
      (.compiledF true true) [.otherF]).2.2.2.2.2.2.1
  · exact (freeze_classify_table true true
      (.compiledF true false) [.otherF]).2.2.2.2.2.2.2

/-! ## Claim C8 -/

/-- Claim C8: with no reusable tail chunk, the fast freeze allocates a
chunk of exactly `cont_size + metadata_words` words; if allocation failed,
demanded a safepoint (fast-path flag cleared) or the chunk requires GC
barriers, the fast path is abandoned and the slow path retried; otherwise
the new chunk ends up with `sp = metadata_words`, `argsize` the
continuation's argsize, `max_size = cont_size`, `pc` the topmost frame's
return address, and freeze returns OK. -/
theorem cold_fast_freeze_allocation (hp : Bool) (i : FreezeFastIn) (a : AllocOutcome)
    (slow : FreezeResult) :
    ((a.success = false ∨ a.fastpath_kept = false ∨ a.barriers = true) →
      freeze_fast_alloc hp i a = none ∧
      try_freeze_fast_alloc hp i a slow = slow) ∧
    (a.success = true → a.fastpath_kept = true → a.barriers = false →
      ∃ c, freeze_fast_alloc hp i a = some c ∧
        try_freeze_fast_alloc hp i a slow = .freeze_ok ∧
        c.stack_size = i.cont_size + metadata_words ∧
        c.sp = metadata_words ∧
        c.argsize = i.cont_argsize ∧
        c.max_size = i.cont_size ∧
        c.pc = i.nativeMem (i.cont_stack_top - sender_sp_ret_address_offset)) := by
  constructor
  · intro h
    have hcond : (!a.success || !a.fastpath_kept || a.barriers) = true := by
      rcases h with h | h | h <;> simp [h]
    have hnone : freeze_fast_alloc hp i a = none := by
      unfold freeze_fast_alloc
      rw [if_pos hcond]
    refine ⟨hnone, ?_⟩
    unfold try_freeze_fast_alloc
    rw [hnone]
  · intro h1 h2 h3
    have hcond : (!a.success || !a.fastpath_kept || a.barriers) = false := by
      simp [h1, h2, h3]
    have hsome : freeze_fast_alloc hp i a
        = some (freeze_fast_copy
          { allocate_chunk (i.cont_size + metadata_words) hp a with
            max_size := i.cont_size, argsize := i.cont_argsize }
          (i.cont_size + metadata_words) i) := by
      unfold freeze_fast_alloc
      rw [if_neg (by simp [hcond])]
    refine ⟨_, hsome, ?_, rfl, ?_, rfl, rfl, rfl⟩
    · unfold try_freeze_fast_alloc
      rw [hsome]
    · show i.cont_size + metadata_words - i.cont_size = metadata_words
      omega

/-- Witness for Claim C8: an allocation that kept the fast path, and one
that cleared it. -/
theorem cold_fast_freeze_allocation_witness :
    let i : FreezeFastIn :=
      { nativeMem := fun a => a, frame_sp := 1000, cont_size := 10, cont_argsize := 3 }
    let aOK : AllocOutcome :=
      { success := true, fastpath_kept := true, barriers := false, mem0 := fun _ => 0 }
    let aSafepoint : AllocOutcome :=
      { success := true, fastpath_kept := false, barriers := false, mem0 := fun _ => 0 }
    (freeze_fast_alloc false i aSafepoint = none ∧
      try_freeze_fast_alloc false i aSafepoint .freeze_pinned_monitor
        = .freeze_pinned_monitor) ∧
    (∃ c, freeze_fast_alloc false i aOK = some c ∧
      try_freeze_fast_alloc false i aOK .freeze_pinned_monitor = .freeze_ok ∧
      c.stack_size = i.cont_size + metadata_words ∧
      c.sp = metadata_words ∧
      c.argsize = i.cont_argsize ∧
      c.max_size = i.cont_size ∧
      c.pc = i.nativeMem (i.cont_stack_top - sender_sp_ret_address_offset)) := by
  intro i aOK aSafepoint
  exact ⟨(cold_fast_freeze_allocation false i aSafepoint .freeze_pinned_monitor).1
      (Or.inr (Or.inl rfl)),
    (cold_fast_freeze_allocation false i aOK .freeze_pinned_monitor).2 rfl rfl rfl⟩

/-! ## Claim C9 -/

/-- Claim C9: `prepare_thaw` works on the non-empty tail chunk (an empty
tail is replaced by its parent), computes the conservative bound
`thaw_size = chunk.max_size + metadata_words + 2*align_wiggle + slack`
in words and returns it in bytes when the stack-overflow check on the
thread's overflow limit passes; it returns 0 exactly when that check
fails; and in both cases the chunk is returned with no field modified. -/
theorem prepare_thaw_sizing (tail parent : StackChunk) (page_size : Nat)
    (limit bottom : Int) :
    ((prepare_thaw_internal tail parent page_size limit bottom).2
      = (if tail.is_empty then parent else tail)) ∧
    ((prepare_thaw_internal tail parent page_size limit bottom).1 = 0 ↔
      stack_overflow_check page_size limit
        ((thaw_size_bound (if tail.is_empty then parent else tail)
          <<< LogBytesPerWord) + 300) bottom = false) ∧
    (stack_overflow_check page_size limit
        ((thaw_size_bound (if tail.is_empty then parent else tail)
          <<< LogBytesPerWord) + 300) bottom = true →
      (prepare_thaw_internal tail parent page_size limit bottom).1
        = ((if tail.is_empty then parent else tail).max_size
            + metadata_words + 2 * align_wiggle + 200) * 8) := by
  have hpos : 0 < thaw_size_bound (if tail.is_empty then parent else tail)
      <<< LogBytesPerWord := by
    rw [Nat.shiftLeft_eq]
    have : 0 < thaw_size_bound (if tail.is_empty then parent else tail) := by
      unfold thaw_size_bound
      omega
    positivity
  unfold prepare_thaw_internal
  by_cases hchk : stack_overflow_check page_size limit
      ((thaw_size_bound (if tail.is_empty then parent else tail)
        <<< LogBytesPerWord) + 300) bottom = true
  · rw [if_pos hchk]
    refine ⟨rfl, ?_, ?_⟩
    · simp only [hchk]
      constructor
      · intro h
        omega
      · intro h
        exact absurd h (by simp)
    · intro _
      show thaw_size_bound (if tail.is_empty then parent else tail)
          <<< LogBytesPerWord = _
      rw [Nat.shiftLeft_eq]
      unfold thaw_size_bound metadata_words align_wiggle LogBytesPerWord
      ring
  · rw [if_neg hchk]
    refine ⟨rfl, ?_, ?_⟩
    · simp only [Bool.not_eq_true] at hchk
      simp [hchk]
    · intro h
      exact absurd h hchk

/-- Witness for Claim C9 at a concrete non-empty tail that fits the
stack. -/
theorem prepare_thaw_sizing_witness :
    let tail : StackChunk :=
      { stack_size := 100, sp := 50, argsize := 4, max_size := 50, pc := 77
        hasParent := false, has_mixed_frames := false, is_gc_mode := false
        has_bitmap := false, requires_barriers := false, mem := fun _ => 0 }
    (prepare_thaw_internal tail tail 4096 0 1000000).2
      = (if tail.is_empty then tail else tail) ∧
    (prepare_thaw_internal tail tail 4096 0 1000000).1
      = ((if tail.is_empty then tail else tail).max_size
          + metadata_words + 2 * align_wiggle + 200) * 8 := by
  intro tail
  obtain ⟨h1, _, h3⟩ := prepare_thaw_sizing tail tail 4096 0 1000000
  exact ⟨h1, h3 (by decide)⟩

/-! ## Claim C10 -/

theorem finalize_freeze_sets_mixed (tail : Option StackChunk) (size0 argsize : Nat)
    (callee_interpreted top_interpreted : Bool) (interp_adjust : Int)
    (barriers : Bool) (fresh : Option StackChunk) (c : StackChunk)
    (h : finalize_freeze tail size0 argsize callee_interpreted top_interpreted
      interp_adjust barriers fresh = some c) :
    c.has_mixed_frames = true := by
  unfold finalize_freeze at h
  cases tail with
  | none =>
    cases fresh with
    | none => simp at h
    | some fr =>
      simp only [Option.map_some', Option.some.injEq] at h
      subst h
      rfl
  | some chunk =>
    dsimp only at h
    split_ifs at h
    all_goals
      try (simp only [Option.some.injEq] at h; subst h; rfl)
    all_goals
      cases fresh with
      | none => simp at h
      | some fr =>
        simp only [Option.map_some', Option.some.injEq] at h
        subst h
        rfl

/-- `freeze_walk` never produces `freeze_ok` itself: it yields
`freeze_ok_bottom` at the recursion end or a pinned/exception code from a
frame classification. -/
theorem freeze_walk_ne_ok (preempt : Bool) (frames : List FrameKind) (top : Bool) :
    freeze_walk preempt frames top ≠ .freeze_ok := by
  induction frames generalizing top with
  | nil => simp [freeze_walk]
  | cons f rest ih =>
    unfold freeze_walk
    cases hc : freeze_classify f preempt top with
    | recurse => exact ih false
    | pinned r =>
      have : r = .freeze_pinned_native ∨ r = .freeze_pinned_monitor := by
        cases f with
        | compiledF hom om =>
          cases hom <;> cases om <;>
            simp only [freeze_classify] at hc <;> simp_all
        | interpretedF n om =>
          cases n <;> cases om <;> cases preempt <;> cases top <;>
            simp only [freeze_classify] at hc <;> simp_all
        | stubF =>
          cases preempt <;> cases top <;>
            simp only [freeze_classify] at hc <;> simp_all
        | otherF =>
          simp only [freeze_classify] at hc
          simp_all
      rcases this with h | h <;> simp [h]

/-- Claim C10: every successful slow-path freeze unconditionally sets the
tail chunk's `HAS_MIXED_FRAMES` flag (regardless of the frozen frames'
kinds); a chunk carrying the flag is disqualified from fast-path freezes
(`is_chunk_available_for_fast_freeze`) and fast-path thaws
(`can_thaw_fast`); and the flag is cleared again only when a thaw empties
the chunk (`finish_thaw` on a chunk the GC has not seen, which keeps it in
the list). -/
theorem slow_freeze_marks_mixed (st : ContState) (preempt : Bool)
    (frames : List FrameKind) (size0 argsize : Nat)
    (callee_interpreted top_interpreted : Bool) (interp_adjust : Int)
    (barriers : Bool) (fresh : Option StackChunk)
    (top_sp_offset : Nat) (top_pc : Word) (align_size : Nat)
    (ch : StackChunk) (ca cs : Nat) (b f pf seen : Bool) :
    ((freeze_internal_slow st false preempt frames size0 argsize
        callee_interpreted top_interpreted interp_adjust barriers fresh
        top_sp_offset top_pc align_size).1 = .freeze_ok →
      ∃ c, (freeze_internal_slow st false preempt frames size0 argsize
          callee_interpreted top_interpreted interp_adjust barriers fresh
          top_sp_offset top_pc align_size).2.tail = some c ∧
        c.has_mixed_frames = true) ∧
    (ch.has_mixed_frames = true →
      is_chunk_available_for_fast_freeze (some ch) ca cs = false) ∧
    (ch.has_mixed_frames = true → can_thaw_fast b f pf ch = false) ∧
    (ch.is_empty = true → seen = false →
      (finish_thaw_chunk ch seen align_size).1.has_mixed_frames = false ∧
      (finish_thaw_chunk ch seen align_size).2 = true) := by
  refine ⟨?_, ?_, ?_, ?_⟩
  · intro hok
    unfold freeze_internal_slow at hok ⊢
    rw [if_neg (by simp)] at hok ⊢
    cases hw : freeze_walk preempt frames true with
    | freeze_ok => exact absurd hw (freeze_walk_ne_ok preempt frames true)
    | freeze_ok_bottom =>
      simp only [hw] at hok ⊢
      cases hf : finalize_freeze st.tail size0 argsize callee_interpreted
          top_interpreted interp_adjust barriers fresh with
      | none => simp [hf] at hok
      | some c =>
        simp only [hf]
        refine ⟨finish_freeze_chunk c top_sp_offset top_pc align_size, rfl, ?_⟩
        have := finalize_freeze_sets_mixed st.tail size0 argsize callee_interpreted
          top_interpreted interp_adjust barriers fresh c hf
        simpa [finish_freeze_chunk] using this
    | freeze_pinned_cs => simp [hw] at hok
    | freeze_pinned_native => simp [hw] at hok
    | freeze_pinned_monitor => simp [hw] at hok
    | freeze_exception => simp [hw] at hok
  · intro hmix
    unfold is_chunk_available_for_fast_freeze
    dsimp only
    rw [if_pos (by simp [hmix])]
  · intro hmix
    unfold can_thaw_fast StackChunk.has_thaw_slowpath_condition
    simp [hmix]
  · intro hemp hseen
    unfold finish_thaw_chunk
    rw [if_pos hemp, if_neg (by simp [hseen])]
    exact ⟨rfl, rfl⟩

/-- Witness for Claim C10: a successful slow freeze on an empty
continuation, a mixed chunk, and a thaw-emptied chunk. -/
theorem slow_freeze_marks_mixed_witness :
    let freshW : StackChunk :=
      { stack_size := 40, sp := 40, argsize := 0, max_size := 0, pc := 0
        hasParent := false, has_mixed_frames := false, is_gc_mode := false
        has_bitmap := false, requires_barriers := false, mem := fun _ => 0 }
    let mixedW : StackChunk :=
      { stack_size := 40, sp := 40, argsize := 0, max_size := 0, pc := 0
        hasParent := false, has_mixed_frames := true, is_gc_mode := false
        has_bitmap := false, requires_barriers := false, mem := fun _ => 0 }
    (∃ c, (freeze_internal_slow ⟨none⟩ false false [.compiledF true false] 7 3
        false false 0 false (some freshW) 2 55 1).2.tail = some c ∧
      c.has_mixed_frames = true) ∧
    is_chunk_available_for_fast_freeze (some mixedW) 3 7 = false ∧
    can_thaw_fast false true false mixedW = false ∧
    ((finish_thaw_chunk mixedW false 1).1.has_mixed_frames = false ∧
      (finish_thaw_chunk mixedW false 1).2 = true) := by
  intro freshW mixedW
  obtain ⟨h1, h2, h3, h4⟩ := slow_freeze_marks_mixed ⟨none⟩ false
    [.compiledF true false] 7 3 false false 0 false (some freshW) 2 55 1
    mixedW 3 7 false true false false
  exact ⟨h1 (by decide), h2 rfl, h3 rfl, h4 (by decide) rfl⟩

end Loom
